import Mathlib

/-!
Shallow embedding of `src/worker-helpers.js` of the linter-eslint repository.

The module's effectful primitives (filesystem stats, `npm get prefix`
subprocess, `require`, environment-variable expansion, `Path.relative`) are
modelled by an explicit environment record `SysEnv`; the module-level mutable
`Cache` object and the process working directory are modelled by an explicit
state record `St` threaded through the functions that read or write them.
String paths are joined with a `/` separator (the POSIX behaviour of
`Path.join`, up to normalisation, which none of the probed paths need).
-/

deriving instance DecidableEq for Except

/-- JavaScript truthiness test for an optional string argument:
`undefined`/`null` and the empty string are falsy. -/
def jsFalsy : Option String → Bool
  | none => true
  | some s => s == ""

/-- An error thrown by the JS code: either an `Error` the module itself
constructs (identified by its message), or an error raised by `require`
and propagated (identified by its `code` property). -/
inductive JsError
  | thrown (message : String)
  | requireError (code : String)
deriving DecidableEq, Repr

/-- Outcome of `ChildProcess.spawnSync(npm, ['get', 'prefix'], ...)`.
`noOutput`: the spawn failed so `result.output[1]` is not a readable buffer
and `.toString()` throws (the only way the `try` block can throw).
`output stdout exitOk`: the subprocess ran, its captured stdout is `stdout`,
and `exitOk` records whether it exited normally (the source never inspects
the exit status). -/
inductive SpawnResult
  | noOutput
  | output (stdout : String) (exitOk : Bool)
deriving DecidableEq, Repr

/-- The ambient process environment: filesystem and subprocess oracles.
`isDir` is `fs.statSync(p).isDirectory()` with the `try/catch` (false on any
error); `expand` is `resolveEnv ∘ fs.normalize` applied to a nonempty path;
`findCachedFile dir name` is atom-linter's `findCached(dir, name)` upward
search for a single file name; `relative` is Node's `Path.relative`;
`requireErr p` is `none` when `require(p)` succeeds and `some code` when it
throws an error with that `code`. -/
structure SysEnv where
  isDir : String → Bool
  expand : String → String
  findCachedFile : String → String → Option String
  relative : String → String → String
  spawn : SpawnResult
  requireErr : String → Option String

/-- Mutable process state: `Cache.NODE_PREFIX_PATH` (null modelled as `none`)
and the current working directory (`process.cwd`). -/
structure St where
  nodePrefixCache : Option String
  cwd : String
deriving DecidableEq, Repr

/-- The resolution policy object (`config`) as consumed by the module. -/
structure Config where
  useGlobalEslint : Bool
  globalNodePath : Option String
  advancedLocalNodeModules : Option String
  disableEslintIgnore : Bool
  eslintRulesDirs : List String
  eslintrcPath : Option String
deriving DecidableEq, Repr

/-- Result record of `findESLintDirectory`. -/
structure PackageLocation where
  path : String
  type : String
deriving DecidableEq, Repr

/-- POSIX-style `Path.join` on two segments. -/
def joinP (a b : String) : String := if a == "" then b else a ++ "/" ++ b

/-- `Path.isAbsolute` (POSIX model). -/
def isAbsoluteS (s : String) : Bool := s.startsWith "/"

/-- Path components of a string path. -/
def splitComponents (p : String) : List String := p.splitOn "/"

/-- `Path.dirname` (string model: drop the last `/`-separated component). -/
def dirnameS (p : String) : String :=
  String.intercalate "/" (splitComponents p).dropLast

/-- `Path.basename` (string model: the last `/`-separated component). -/
def basenameS (p : String) : String := ((splitComponents p).getLast?).getD p

/-- `cleanPath`: empty string for a falsy argument, otherwise home-directory
and environment-variable expansion of the path. -/
def cleanPath (env : SysEnv) (path : Option String) : String :=
  match path with
  | none => ""
  | some s => if s == "" then "" else env.expand s

/-- `Cache.ESLINT_LOCAL_PATH`: the bundled fallback package's path, computed
at module load from the installation's own directory
(`Path.normalize(Path.join(__dirname, '..', 'node_modules', 'eslint'))`). -/
def ESLINT_LOCAL_PATH : String := "linter-eslint/node_modules/eslint"

/-- The message of the error thrown when `npm get prefix` cannot be read. -/
def npmPrefixErrMsg : String :=
  "Unable to execute `npm get prefix`. Please make sure " ++
    "Atom is getting $PATH correctly."

/-- The message thrown when global mode finds no eslint directory. -/
def eslintNotFoundGlobalMsg : String :=
  "ESLint not found, please ensure the global Node path is set correctly."

/-- The message thrown when a globally located module fails to load with
`MODULE_NOT_FOUND`. -/
def eslintRestartMsg : String :=
  "ESLint not found, try restarting Atom to clear caches."

/-- `getNodePrefixPath`: returns the cached prefix if present; otherwise runs
`npm get prefix` synchronously, caching and returning its trimmed stdout, and
throwing when the subprocess's output cannot be read. The third component
counts the subprocess spawns this call performed. -/
def getNodePrefixPath (env : SysEnv) (st : St) :
    (Except JsError String) × St × Nat :=
  match st.nodePrefixCache with
  | some v => (Except.ok v, st, 0)
  | none =>
    match env.spawn with
    | SpawnResult.noOutput =>
      (Except.error (JsError.thrown npmPrefixErrMsg), st, 1)
    | SpawnResult.output stdout _ =>
      (Except.ok stdout.trim,
        { st with nodePrefixCache := some stdout.trim }, 1)

/-- The prefix-path computation inside `findESLintDirectory`'s global branch:
`const prefixPath = configGlobal || getNodePrefixPath()` where
`configGlobal = cleanPath(config.globalNodePath)`. -/
def resolvePrefixPath (env : SysEnv) (st : St) (config : Config) :
    (Except JsError String) × St :=
  let configGlobal := cleanPath env config.globalNodePath
  if configGlobal == "" then
    let r := getNodePrefixPath env st
    (r.1, r.2.1)
  else
    (Except.ok configGlobal, st)

/-- `findESLintDirectory(modulesDir, config, projectPath)`. -/
def findESLintDirectory (env : SysEnv) (st : St) (modulesDir : String)
    (config : Config) (projectPath : Option String) :
    (Except JsError PackageLocation) × St :=
  let pre : (Except JsError (String × String)) × St :=
    if config.useGlobalEslint then
      match resolvePrefixPath env st config with
      | (Except.error e, st') => (Except.error e, st')
      | (Except.ok prefixPath, st') =>
        -- NPM on Windows and Yarn on all platforms
        let d1 := joinP (joinP prefixPath "node_modules") "eslint"
        -- NPM on platforms other than Windows
        let eslintDir :=
          if env.isDir d1 then d1
          else joinP (joinP (joinP prefixPath "lib") "node_modules") "eslint"
        (Except.ok (eslintDir, "global"), st')
    else if jsFalsy config.advancedLocalNodeModules then
      (Except.ok (joinP modulesDir "eslint", "local project"), st)
    else if isAbsoluteS (cleanPath env config.advancedLocalNodeModules) then
      (Except.ok
        (joinP (cleanPath env config.advancedLocalNodeModules) "eslint",
          "advanced specified"), st)
    else
      (Except.ok
        (joinP (joinP (projectPath.getD "")
            (cleanPath env config.advancedLocalNodeModules)) "eslint",
          "advanced specified"), st)
  match pre with
  | (Except.error e, st') => (Except.error e, st')
  | (Except.ok (eslintDir, locationType), st') =>
    if env.isDir eslintDir then
      (Except.ok { path := eslintDir, type := locationType }, st')
    else if config.useGlobalEslint then
      (Except.error (JsError.thrown eslintNotFoundGlobalMsg), st')
    else
      (Except.ok { path := ESLINT_LOCAL_PATH, type := "bundled fallback" }, st')

/-- `getESLintFromDirectory(modulesDir, config, projectPath)`: locates the
package, then `require`s it; a loaded module is represented by its path. On a
load failure: global mode with a `MODULE_NOT_FOUND` code throws the restart
message; every other failure falls through to `require(ESLINT_LOCAL_PATH)`,
whose own failure (outside any `try`) propagates. -/
def getESLintFromDirectory (env : SysEnv) (st : St) (modulesDir : String)
    (config : Config) (projectPath : Option String) :
    (Except JsError String) × St :=
  match findESLintDirectory env st modulesDir config projectPath with
  | (Except.error e, st') => (Except.error e, st')
  | (Except.ok loc, st') =>
    match env.requireErr loc.path with
    | none => (Except.ok loc.path, st')
    | some code =>
      if config.useGlobalEslint && code == "MODULE_NOT_FOUND" then
        (Except.error (JsError.thrown eslintRestartMsg), st')
      else
        match env.requireErr ESLINT_LOCAL_PATH with
        | none => (Except.ok ESLINT_LOCAL_PATH, st')
        | some c => (Except.error (JsError.requireError c), st')

/-- `getRelativePath(fileDir, filePath, config, projectPath)`: returns the
path handed to the engine and the updated process state (the function sets
`process.cwd` via `process.chdir` in every branch). -/
def getRelativePath (env : SysEnv) (st : St) (fileDir filePath : String)
    (config : Config) (projectPath : Option String) : String × St :=
  let ignoreFile :=
    if config.disableEslintIgnore then none
    else env.findCachedFile fileDir ".eslintignore"
  match ignoreFile with
  | some f =>
    -- If we can find an .eslintignore file, we can set cwd there
    let ignoreDir := dirnameS f
    (env.relative ignoreDir filePath, { st with cwd := ignoreDir })
  | none =>
    if jsFalsy projectPath then
      -- If all else fails, use the file location itself
      (basenameS filePath, { st with cwd := fileDir })
    else
      -- Otherwise set the cwd to the atom project root
      let p := projectPath.getD ""
      (env.relative p filePath, { st with cwd := p })

/-- The `cliEngineConfig` object assembled by `getCLIEngineOptions`; the
optionally attached properties are `Option`-valued. The rules map is passed
through opaquely, so its type is a parameter. -/
structure CliEngineConfig (ρ : Type) where
  rules : ρ
  ignore : Bool
  fix : Bool
  ignorePath : Option String
  rulePaths : List String
  configFile : Option String
deriving DecidableEq, Repr

/-- `getCLIEngineOptions(type, config, rules, filePath, fileDir,
givenConfigPath)`. The process state is threaded to record that the function
leaves it untouched. -/
def getCLIEngineOptions {ρ : Type} (env : SysEnv) (st : St) (type : String)
    (config : Config) (rules : ρ) (filePath fileDir : String)
    (givenConfigPath : Option String) : CliEngineConfig ρ × St :=
  let base : CliEngineConfig ρ :=
    { rules := rules
      ignore := !config.disableEslintIgnore
      fix := type == "fix"
      ignorePath := none
      rulePaths := []
      configFile := none }
  let ignoreFile :=
    if config.disableEslintIgnore then none
    else env.findCachedFile fileDir ".eslintignore"
  let withIgnore :=
    match ignoreFile with
    | some f => { base with ignorePath := some f }
    | none => base
  let rulePaths :=
    (config.eslintRulesDirs.map (fun path =>
      let rulesDir := cleanPath env (some path)
      if !isAbsoluteS rulesDir then env.findCachedFile fileDir rulesDir
      else some rulesDir)).filterMap (fun r =>
        match r with
        | some s => if s == "" then none else some s
        | none => none)
  let withRules := { withIgnore with rulePaths := rulePaths }
  let final :=
    if givenConfigPath = none ∧ jsFalsy config.eslintrcPath = false then
      -- If we didn't find a configuration use the fallback from the settings
      { withRules with configFile := some (cleanPath env config.eslintrcPath) }
    else withRules
  (final, st)

/-- The key set of a rules map (`new Set(rules.keys())`); a JS `Map` is
modelled as an association list, whose keys the `Set` constructor dedups. -/
def ruleIds {α : Type} (rules : List (String × α)) : Finset String :=
  (rules.map Prod.fst).toFinset

/-- `didRulesChange(currentRules, newRules)`: true when a rule id was added
(`newRules` minus `currentRules` nonempty) or removed (`currentRules` minus
`newRules` nonempty). -/
def didRulesChange {α : Type} (currentRules newRules : List (String × α)) :
    Bool :=
  let currentRuleIds := ruleIds currentRules
  let newRuleIds := ruleIds newRules
  let addedRuleIds := newRuleIds \ currentRuleIds
  let removedRuleIds := currentRuleIds \ newRuleIds
  decide (0 < addedRuleIds.card) || decide (0 < removedRuleIds.card)

/-!
The config-file search (`getConfigPath`) recurses through ancestor
directories, so for it paths are modelled structurally: a `DirPath` is the
list of components from the filesystem root. `dropLast` is `Path.dirname` on
a file path and the `..` step of `Path.resolve(d, '..')` on a directory path;
at the root, `Path.resolve('/', '..')` is `/` again, matching
`List.dropLast [] = []`.
-/

/-- A path as its components from the filesystem root. -/
abbrev DirPath := List String

/-- The filesystem as seen by `getConfigPath`: which files exist, and whether
a `package.json` file, `require`d, has a truthy `eslintConfig` property. -/
structure FileTree where
  files : List DirPath
  hasEslintConfig : DirPath → Bool

/-- Try each candidate file name in order inside one directory, returning the
first existing file (the per-directory order of atom-linter's `findCached`). -/
def tryNames (fs : FileTree) (d : DirPath) : List String → Option DirPath
  | [] => none
  | n :: rest =>
    if fs.files.contains (d ++ [n]) then some (d ++ [n])
    else tryNames fs d rest

/-- Search a list of directories in order, returning the first hit. -/
def searchDirs (fs : FileTree) (names : List String) :
    List DirPath → Option DirPath
  | [] => none
  | d :: rest =>
    match tryNames fs d names with
    | some p => some p
    | none => searchDirs fs names rest

/-- atom-linter's `findCached(dir, names)`: walk `dir`, its parent, ..., up
to the root (`dir.inits.reverse` lists exactly these, nearest first), trying
the candidate names in order in each directory. -/
def findCachedP (fs : FileTree) (dir : DirPath) (names : List String) :
    Option DirPath :=
  searchDirs fs names dir.inits.reverse

/-- The ordered candidate list of `getConfigPath`, manifest file last. -/
def configFileNames : List String :=
  [".eslintrc.js", ".eslintrc.yaml", ".eslintrc.yml", ".eslintrc.json",
    ".eslintrc", "package.json"]

/-- One step of `getConfigPath fileDir`: either an answer (`Sum.inl`: the
found config path or `none`), or the directory the search restarts from
(`Sum.inr`, the `return getConfigPath(Path.resolve(Path.dirname(configFile),
'..'))` tail call taken for a `package.json` without an `eslintConfig`). -/
def getConfigPathStep (fs : FileTree) (fileDir : DirPath) :
    Sum (Option DirPath) DirPath :=
  match findCachedP fs fileDir configFileNames with
  | some configFile =>
    if configFile.getLast? = some "package.json" then
      if fs.hasEslintConfig configFile then Sum.inl (some configFile)
      else
        -- a package.json without an eslint config: keep looking from the
        -- parent directory
        Sum.inr configFile.dropLast.dropLast
    else Sum.inl (some configFile)
  | none => Sum.inl none

/-- `getConfigPath` run for at most `fuel` steps: `some r` when the
recursion reaches an answer within the budget, `none` otherwise. -/
def getConfigPathFuel (fs : FileTree) : Nat → DirPath → Option (Option DirPath)
  | 0, _ => none
  | fuel + 1, dir =>
    match getConfigPathStep fs dir with
    | Sum.inl r => some r
    | Sum.inr next => getConfigPathFuel fs fuel next

/-- `getConfigPath fileDir` evaluates to `r` (a config path or null). -/
def getConfigPathResult (fs : FileTree) (dir : DirPath)
    (r : Option DirPath) : Prop :=
  ∃ fuel, getConfigPathFuel fs fuel dir = some r

/-- `getConfigPath` terminates on every input over every file tree. -/
def GetConfigPathTotal : Prop :=
  ∀ (fs : FileTree) (dir : DirPath),
    ∃ fuel, (getConfigPathFuel fs fuel dir).isSome = true

/-- An environment where no path is a directory and every lookup misses. -/
def envNoDirs : SysEnv :=
  { isDir := fun _ => false, expand := id,
    findCachedFile := fun _ _ => none, relative := fun _ b => b,
    spawn := SpawnResult.noOutput, requireErr := fun _ => none }

/-- The default local policy: no global package, no advanced override. -/
def cfgLocalPolicy : Config :=
  { useGlobalEslint := false, globalNodePath := none,
    advancedLocalNodeModules := none, disableEslintIgnore := false,
    eslintRulesDirs := [], eslintrcPath := none }

/-- The global policy pointing at the override path `/gp`. -/
def cfgGlobalPolicy : Config :=
  { useGlobalEslint := true, globalNodePath := some "/gp",
    advancedLocalNodeModules := none, disableEslintIgnore := false,
    eslintRulesDirs := [], eslintrcPath := none }

/-- An environment where exactly `/gp/node_modules/eslint` is a directory. -/
def envGpGlobal : SysEnv :=
  { isDir := fun s => s == "/gp/node_modules/eslint", expand := id,
    findCachedFile := fun _ _ => none, relative := fun _ b => b,
    spawn := SpawnResult.noOutput, requireErr := fun _ => none }

/-- An environment where `/gp/node_modules/eslint` is a directory but the
module there fails to load with an error code other than
`MODULE_NOT_FOUND`, while the bundled fallback loads fine. -/
def envGpBadLoad : SysEnv :=
  { isDir := fun s => s == "/gp/node_modules/eslint", expand := id,
    findCachedFile := fun _ _ => none, relative := fun _ b => b,
    spawn := SpawnResult.noOutput,
    requireErr := fun s =>
      if s == "/gp/node_modules/eslint" then some "ERR_SYNTAX" else none }

/-- An environment where the globally located module fails to load with
`MODULE_NOT_FOUND`. -/
def envGpMnf : SysEnv :=
  { isDir := fun s => s == "/gp/node_modules/eslint", expand := id,
    findCachedFile := fun _ _ => none, relative := fun _ b => b,
    spawn := SpawnResult.noOutput,
    requireErr := fun s =>
      if s == "/gp/node_modules/eslint" then some "MODULE_NOT_FOUND"
      else none }

/-- An environment for exercising `getRelativePath` concretely. -/
def envCwdProbe : SysEnv :=
  { isDir := fun _ => false, expand := id,
    findCachedFile := fun _ _ => none, relative := fun _ b => b,
    spawn := SpawnResult.noOutput, requireErr := fun _ => none }

/-- The policy with ignore-file lookups disabled. -/
def cfgNoIgnore : Config :=
  { useGlobalEslint := false, globalNodePath := none,
    advancedLocalNodeModules := none, disableEslintIgnore := true,
    eslintRulesDirs := [], eslintrcPath := none }

/-- An environment whose subprocess fails to spawn. -/
def envSpawnFail : SysEnv :=
  { isDir := fun _ => false, expand := id,
    findCachedFile := fun _ _ => none, relative := fun _ b => b,
    spawn := SpawnResult.noOutput, requireErr := fun _ => none }

/-- An environment whose subprocess runs and prints `/usr/local`. -/
def envSpawnOk : SysEnv :=
  { isDir := fun _ => false, expand := id,
    findCachedFile := fun _ _ => none, relative := fun _ b => b,
    spawn := SpawnResult.output "/usr/local" true,
    requireErr := fun _ => none }

/-- An environment whose subprocess exits abnormally but with readable
(empty) stdout. -/
def envAbnormalExit : SysEnv :=
  { isDir := fun _ => false, expand := id,
    findCachedFile := fun _ _ => none, relative := fun _ b => b,
    spawn := SpawnResult.output "" false, requireErr := fun _ => none }

/-- The file tree with only a root-level `package.json` that has no embedded
`eslintConfig`. -/
def fsRootManifestLoop : FileTree :=
  { files := [["package.json"]], hasEslintConfig := fun _ => false }

/-- The file tree `a/b/c` whose only candidate anywhere is `a/package.json`
without an embedded config. -/
def fsManifestOnlyAtA : FileTree :=
  { files := [["a", "package.json"]], hasEslintConfig := fun _ => false }

/-!  Theorems about the embedded functions, one per claim of the spec. -/

/-- Claim C3: `didRulesChange previous current` is true exactly when the key
set of `current` differs from the key set of `previous` — order- and
value-insensitive — and the four concrete examples evaluate as stated. -/
theorem didRulesChange_iff_keySetChanged :
    (∀ (α : Type) (previous current : List (String × α)),
      didRulesChange previous current = true ↔
        ruleIds current ≠ ruleIds previous)
    ∧ didRulesChange [("x", 1)] [("x", 1)] = false
    ∧ didRulesChange [("x", 1)] [("x", 1), ("y", 2)] = true
    ∧ didRulesChange [("x", 1), ("y", 2)] [("x", 1)] = true
    ∧ didRulesChange [("x", 1)] [("y", 1)] = true := by
  refine ⟨?_, by decide, by decide, by decide, by decide⟩
  intro α previous current
  unfold didRulesChange
  simp only [Bool.or_eq_true, decide_eq_true_eq, Finset.card_pos,
    Finset.sdiff_nonempty]
  constructor
  · rintro (h | h) heq
    · exact h (heq ▸ Finset.Subset.refl _)
    · exact h (heq ▸ Finset.Subset.refl _)
  · intro hne
    by_contra hcon
    push_neg at hcon
    exact hne (Finset.Subset.antisymm hcon.1 hcon.2)

/-- A witness for C3 at concrete inputs: the key set genuinely changed in the
second example. -/
theorem didRulesChange_iff_keySetChanged_witness :
    ruleIds [("x", 1), ("y", 2)] ≠ ruleIds [("x", 1)] :=
  (didRulesChange_iff_keySetChanged.1 Nat [("x", 1)] [("x", 1), ("y", 2)]).mp
    (by decide)

/-- Claim C4: with `useGlobalEslint=false` and a falsy
`advancedLocalNodeModules`, `findESLintDirectory` returns
`<modulesDir>/eslint` as a `local project` location when that directory
exists, and otherwise the bundled fallback location; it never raises and
never touches the process state. -/
theorem findESLintDirectory_local_default (env : SysEnv) (st : St)
    (modulesDir : String) (config : Config) (projectPath : Option String)
    (hG : config.useGlobalEslint = false)
    (hA : jsFalsy config.advancedLocalNodeModules = true) :
    findESLintDirectory env st modulesDir config projectPath =
      (Except.ok
        (if env.isDir (joinP modulesDir "eslint") then
          { path := joinP modulesDir "eslint", type := "local project" }
        else { path := ESLINT_LOCAL_PATH, type := "bundled fallback" }), st) := by
  unfold findESLintDirectory
  rw [hG, hA]
  by_cases h : env.isDir (joinP modulesDir "eslint") = true
  · simp [h]
  · simp [h]

/-- A witness for C4: a concrete environment where `<modulesDir>/eslint` is
missing, so the bundled fallback is returned. -/
theorem findESLintDirectory_local_default_witness :
    findESLintDirectory envNoDirs { nodePrefixCache := none, cwd := "/" }
      "proj/node_modules" cfgLocalPolicy none =
      (Except.ok { path := ESLINT_LOCAL_PATH, type := "bundled fallback" },
        { nodePrefixCache := none, cwd := "/" }) :=
  findESLintDirectory_local_default envNoDirs
    { nodePrefixCache := none, cwd := "/" } "proj/node_modules"
    cfgLocalPolicy none rfl rfl

/-- Claim C1: in global mode, when the resolved prefix yields neither
`<prefix>/node_modules/eslint` nor `<prefix>/lib/node_modules/eslint` as an
existing directory, `findESLintDirectory` throws the global
package-not-found error; and a successful global lookup never carries the
`bundled fallback` source kind. -/
theorem findESLintDirectory_global_noFallback :
    (∀ (env : SysEnv) (st : St) (modulesDir : String) (config : Config)
        (projectPath : Option String) (pfx : String) (st' : St),
      config.useGlobalEslint = true →
      resolvePrefixPath env st config = (Except.ok pfx, st') →
      env.isDir (joinP (joinP pfx "node_modules") "eslint") = false →
      env.isDir (joinP (joinP (joinP pfx "lib") "node_modules") "eslint")
        = false →
      findESLintDirectory env st modulesDir config projectPath =
        (Except.error (JsError.thrown eslintNotFoundGlobalMsg), st'))
    ∧ (∀ (env : SysEnv) (st : St) (modulesDir : String) (config : Config)
        (projectPath : Option String) (loc : PackageLocation) (st' : St),
      config.useGlobalEslint = true →
      findESLintDirectory env st modulesDir config projectPath =
        (Except.ok loc, st') →
      loc.type ≠ "bundled fallback") := by
  constructor
  · intro env st modulesDir config projectPath pfx st' hG hres h1 h2
    unfold findESLintDirectory
    rw [hG, hres]
    simp [h1, h2]
  · intro env st modulesDir config projectPath loc st' hG hok
    unfold findESLintDirectory at hok
    rw [hG] at hok
    rcases hres : resolvePrefixPath env st config with ⟨r, s2⟩
    rw [hres] at hok
    cases r with
    | error e => simp at hok
    | ok pfx =>
      by_cases h1 : env.isDir (joinP (joinP pfx "node_modules") "eslint")
      <;> by_cases h2 :
        env.isDir (joinP (joinP (joinP pfx "lib") "node_modules") "eslint")
      <;> simp [h1, h2] at hok
      <;> exact fun hcon => by
        have hs : ("global" : String) = "bundled fallback" := by
          rw [← hok.1] at hcon; exact hcon
        exact absurd hs (by decide)

/-- A witness for C1: with no directory present the global lookup throws,
and a successful global lookup carries the `global` source kind. -/
theorem findESLintDirectory_global_noFallback_witness :
    findESLintDirectory envNoDirs { nodePrefixCache := none, cwd := "/" } "m"
      cfgGlobalPolicy none =
      (Except.error (JsError.thrown eslintNotFoundGlobalMsg),
        { nodePrefixCache := none, cwd := "/" })
    ∧ ({ path := "/gp/node_modules/eslint", type := "global" } :
        PackageLocation).type ≠ "bundled fallback" :=
  ⟨findESLintDirectory_global_noFallback.1 envNoDirs
      { nodePrefixCache := none, cwd := "/" } "m" cfgGlobalPolicy none
      "/gp" { nodePrefixCache := none, cwd := "/" } rfl (by decide) rfl rfl,
    findESLintDirectory_global_noFallback.2 envGpGlobal
      { nodePrefixCache := none, cwd := "/" } "m" cfgGlobalPolicy none
      { path := "/gp/node_modules/eslint", type := "global" }
      { nodePrefixCache := none, cwd := "/" } rfl (by decide)⟩

/-- Counterexample to C2 as stated: the location is `global` and loading the
module at the located path fails (with a code other than
`MODULE_NOT_FOUND`), yet the call does not fail — it returns the bundled
fallback module. -/
theorem getESLintFromDirectory_global_nonMNF_cex :
    (findESLintDirectory envGpBadLoad { nodePrefixCache := none, cwd := "/" }
        "m" cfgGlobalPolicy none).1 =
      Except.ok { path := "/gp/node_modules/eslint", type := "global" }
    ∧ envGpBadLoad.requireErr "/gp/node_modules/eslint" = some "ERR_SYNTAX"
    ∧ (getESLintFromDirectory envGpBadLoad
        { nodePrefixCache := none, cwd := "/" } "m" cfgGlobalPolicy none).1 =
      Except.ok ESLINT_LOCAL_PATH := by
  refine ⟨by decide, by decide, by decide⟩

/-- Claim C2 (amended): when the located module fails to load with
`MODULE_NOT_FOUND` in global mode, `getESLintFromDirectory` throws the
restart error; for every other load failure (non-global mode, or a
different error code) it returns the bundled fallback module, provided that
module itself loads. -/
theorem getESLintFromDirectory_load_failure :
    (∀ (env : SysEnv) (st : St) (modulesDir : String) (config : Config)
        (projectPath : Option String) (loc : PackageLocation) (st' : St),
      findESLintDirectory env st modulesDir config projectPath =
        (Except.ok loc, st') →
      env.requireErr loc.path = some "MODULE_NOT_FOUND" →
      config.useGlobalEslint = true →
      getESLintFromDirectory env st modulesDir config projectPath =
        (Except.error (JsError.thrown eslintRestartMsg), st'))
    ∧ (∀ (env : SysEnv) (st : St) (modulesDir : String) (config : Config)
        (projectPath : Option String) (loc : PackageLocation) (st' : St)
        (code : String),
      findESLintDirectory env st modulesDir config projectPath =
        (Except.ok loc, st') →
      env.requireErr loc.path = some code →
      (config.useGlobalEslint && code == "MODULE_NOT_FOUND") = false →
      env.requireErr ESLINT_LOCAL_PATH = none →
      getESLintFromDirectory env st modulesDir config projectPath =
        (Except.ok ESLINT_LOCAL_PATH, st')) := by
  constructor
  · intro env st modulesDir config projectPath loc st' hfind hreq hG
    unfold getESLintFromDirectory
    rw [hfind]
    dsimp only
    rw [hreq, hG]
    simp
  · intro env st modulesDir config projectPath loc st' code hfind hreq hnot
      hbundled
    unfold getESLintFromDirectory
    rw [hfind]
    dsimp only
    rw [hreq]
    dsimp only
    rw [hnot]
    simp [hbundled]

/-- A witness for C2 (amended) at concrete inputs: the global
`MODULE_NOT_FOUND` failure throws, and a non-`MODULE_NOT_FOUND` global
failure returns the bundled fallback. -/
theorem getESLintFromDirectory_load_failure_witness :
    getESLintFromDirectory envGpMnf { nodePrefixCache := none, cwd := "/" }
      "m" cfgGlobalPolicy none =
      (Except.error (JsError.thrown eslintRestartMsg),
        { nodePrefixCache := none, cwd := "/" })
    ∧ getESLintFromDirectory envGpBadLoad
        { nodePrefixCache := none, cwd := "/" } "m" cfgGlobalPolicy none =
      (Except.ok ESLINT_LOCAL_PATH, { nodePrefixCache := none, cwd := "/" }) :=
  ⟨getESLintFromDirectory_load_failure.1 envGpMnf
      { nodePrefixCache := none, cwd := "/" } "m" cfgGlobalPolicy none
      { path := "/gp/node_modules/eslint", type := "global" }
      { nodePrefixCache := none, cwd := "/" } (by decide) (by decide) rfl,
    getESLintFromDirectory_load_failure.2 envGpBadLoad
      { nodePrefixCache := none, cwd := "/" } "m" cfgGlobalPolicy none
      { path := "/gp/node_modules/eslint", type := "global" }
      { nodePrefixCache := none, cwd := "/" } "ERR_SYNTAX" (by decide)
      (by decide) (by decide) (by decide)⟩

/-- Claim C7: for every input, the options record satisfies the four stated
field equations — fix flag, ignore-enabled flag, conditionally attached
ignore path, and conditionally attached fallback config override. -/
theorem getCLIEngineOptions_fields {ρ : Type} (env : SysEnv) (st : St)
    (type : String) (config : Config) (rules : ρ) (filePath fileDir : String)
    (givenConfigPath : Option String) :
    ((getCLIEngineOptions env st type config rules filePath fileDir
        givenConfigPath).1.fix = (type == "fix"))
    ∧ (getCLIEngineOptions env st type config rules filePath fileDir
        givenConfigPath).1.ignore = !config.disableEslintIgnore
    ∧ (getCLIEngineOptions env st type config rules filePath fileDir
        givenConfigPath).1.ignorePath =
      (if config.disableEslintIgnore then none
        else env.findCachedFile fileDir ".eslintignore")
    ∧ (getCLIEngineOptions env st type config rules filePath fileDir
        givenConfigPath).1.configFile =
      (if givenConfigPath = none ∧ jsFalsy config.eslintrcPath = false then
        some (cleanPath env config.eslintrcPath)
      else none) := by
  by_cases hd : config.disableEslintIgnore
  <;> rcases hfc : env.findCachedFile fileDir ".eslintignore" with _ | f
  <;> by_cases hc : givenConfigPath = none ∧ jsFalsy config.eslintrcPath = false
  <;> simp [getCLIEngineOptions, hd, hfc, hc]

/-- Claim C10: `getCLIEngineOptions` leaves the process state (in particular
the working directory) exactly as it was, while still recording the result
of the same upward ignore-file lookup that `getRelativePath` performs. -/
theorem getCLIEngineOptions_preserves_state {ρ : Type} (env : SysEnv)
    (st : St) (type : String) (config : Config) (rules : ρ)
    (filePath fileDir : String) (givenConfigPath : Option String) :
    (getCLIEngineOptions env st type config rules filePath fileDir
        givenConfigPath).2 = st
    ∧ (getCLIEngineOptions env st type config rules filePath fileDir
        givenConfigPath).1.ignorePath =
      (if config.disableEslintIgnore then none
        else env.findCachedFile fileDir ".eslintignore") := by
  constructor
  · rfl
  · by_cases hd : config.disableEslintIgnore
    <;> rcases hfc : env.findCachedFile fileDir ".eslintignore" with _ | f
    <;> by_cases hc :
      givenConfigPath = none ∧ jsFalsy config.eslintrcPath = false
    <;> simp [getCLIEngineOptions, hd, hfc, hc]

/-- Claim C9: with ignore-file lookups disabled and a non-empty project
root, `getRelativePath` sets the working directory to the project root and
returns the file path relative to it. -/
theorem getRelativePath_projectRoot (env : SysEnv) (st : St)
    (fileDir filePath : String) (config : Config) (p : String)
    (hI : config.disableEslintIgnore = true) (hp : p ≠ "") :
    getRelativePath env st fileDir filePath config (some p) =
      (env.relative p filePath, { st with cwd := p }) := by
  unfold getRelativePath
  rw [hI]
  simp [jsFalsy, hp]

/-- A witness for C9 at concrete inputs. -/
theorem getRelativePath_projectRoot_witness :
    getRelativePath envCwdProbe { nodePrefixCache := none, cwd := "/" }
      "/proj/src" "/proj/src/a.js" cfgNoIgnore (some "/proj") =
      (envCwdProbe.relative "/proj" "/proj/src/a.js",
        { nodePrefixCache := none, cwd := "/proj" }) :=
  getRelativePath_projectRoot envCwdProbe
    { nodePrefixCache := none, cwd := "/" } "/proj/src" "/proj/src/a.js"
    cfgNoIgnore "/proj" rfl (by decide)

/-- Claim C8 (amended): `getNodePrefixPath` returns the cached value without
spawning when the cache is filled; after any successful call, later calls
return the same value without spawning; with an empty cache it throws the
prefix error exactly when the subprocess's output cannot be read, while a
run whose output is readable — even after an abnormal exit — caches and
returns the trimmed stdout without error. -/
theorem getNodePrefixPath_memoized :
    (∀ (env : SysEnv) (st : St) (v : String),
      st.nodePrefixCache = some v →
      getNodePrefixPath env st = (Except.ok v, st, 0))
    ∧ (∀ (env : SysEnv) (st : St) (r : String) (st' : St) (n : Nat),
      getNodePrefixPath env st = (Except.ok r, st', n) →
      getNodePrefixPath env st' = (Except.ok r, st', 0))
    ∧ (∀ (env : SysEnv) (st : St),
      st.nodePrefixCache = none → env.spawn = SpawnResult.noOutput →
      getNodePrefixPath env st =
        (Except.error (JsError.thrown npmPrefixErrMsg), st, 1))
    ∧ (∀ (env : SysEnv) (st : St) (stdout : String) (exitOk : Bool),
      st.nodePrefixCache = none →
      env.spawn = SpawnResult.output stdout exitOk →
      getNodePrefixPath env st =
        (Except.ok stdout.trim,
          { st with nodePrefixCache := some stdout.trim }, 1)) := by
  refine ⟨?_, ?_, ?_, ?_⟩
  · intro env st v h
    unfold getNodePrefixPath
    rw [h]
  · intro env st r st' n h
    unfold getNodePrefixPath at h ⊢
    cases hc : st.nodePrefixCache with
    | some v =>
      rw [hc] at h
      simp only [Prod.mk.injEq] at h
      obtain ⟨h1, h2, h3⟩ := h
      obtain rfl := Except.ok.inj h1
      subst h2
      rw [hc]
    | none =>
      rw [hc] at h
      cases hs : env.spawn with
      | noOutput => rw [hs] at h; simp at h
      | output s e =>
        rw [hs] at h
        simp only [Prod.mk.injEq] at h
        obtain ⟨h1, h2, h3⟩ := h
        obtain rfl := Except.ok.inj h1
        subst h2
        rfl
  · intro env st h hs
    unfold getNodePrefixPath
    rw [h]
    dsimp only
    rw [hs]
  · intro env st stdout exitOk h hs
    unfold getNodePrefixPath
    rw [h]
    dsimp only
    rw [hs]

/-- A witness for C8 (amended) at concrete inputs: cache hit, re-call after
success, spawn failure, and a successful run. -/
theorem getNodePrefixPath_memoized_witness :
    getNodePrefixPath envSpawnOk { nodePrefixCache := some "/usr", cwd := "/" }
      = (Except.ok "/usr", { nodePrefixCache := some "/usr", cwd := "/" }, 0)
    ∧ getNodePrefixPath envSpawnOk
        { nodePrefixCache := some "/usr", cwd := "/" }
      = (Except.ok "/usr", { nodePrefixCache := some "/usr", cwd := "/" }, 0)
    ∧ getNodePrefixPath envSpawnFail { nodePrefixCache := none, cwd := "/" }
      = (Except.error (JsError.thrown npmPrefixErrMsg),
          { nodePrefixCache := none, cwd := "/" }, 1)
    ∧ getNodePrefixPath envSpawnOk { nodePrefixCache := none, cwd := "/" }
      = (Except.ok "/usr/local".trim,
          { nodePrefixCache := some "/usr/local".trim, cwd := "/" }, 1) :=
  ⟨getNodePrefixPath_memoized.1 envSpawnOk
      { nodePrefixCache := some "/usr", cwd := "/" } "/usr" rfl,
    getNodePrefixPath_memoized.2.1 envSpawnOk
      { nodePrefixCache := some "/usr", cwd := "/" } "/usr"
      { nodePrefixCache := some "/usr", cwd := "/" } 0 (by decide),
    getNodePrefixPath_memoized.2.2.1 envSpawnFail
      { nodePrefixCache := none, cwd := "/" } rfl rfl,
    getNodePrefixPath_memoized.2.2.2 envSpawnOk
      { nodePrefixCache := none, cwd := "/" } "/usr/local" true rfl rfl⟩

/-- Counterexample to C8 as stated: the subprocess exits abnormally, yet
`getNodePrefixPath` does not fail — it caches and returns the trimmed
(empty) stdout. -/
theorem getNodePrefixPath_abnormalExit_cex :
    envAbnormalExit.spawn = SpawnResult.output "" false
    ∧ (getNodePrefixPath envAbnormalExit
        { nodePrefixCache := none, cwd := "/" }).1 = Except.ok "".trim
    ∧ ¬ (getNodePrefixPath envAbnormalExit
        { nodePrefixCache := none, cwd := "/" }).1 =
      Except.error (JsError.thrown npmPrefixErrMsg) :=
  ⟨rfl, rfl, fun h => Except.noConfusion h⟩

/-- Unfolding of one step of the fuelled `getConfigPath` runner. -/
theorem getConfigPathFuel_succ (fs : FileTree) (fuel : Nat) (dir : DirPath) :
    getConfigPathFuel fs (fuel + 1) dir =
      match getConfigPathStep fs dir with
      | Sum.inl r => some r
      | Sum.inr next => getConfigPathFuel fs fuel next := rfl

/-- A hit of `tryNames` is one of the candidate names inside the probed
directory. -/
theorem tryNames_shape (fs : FileTree) (d : DirPath) :
    ∀ (names : List String) (p : DirPath),
      tryNames fs d names = some p → ∃ n, n ∈ names ∧ p = d ++ [n] := by
  intro names
  induction names with
  | nil => intro p h; simp [tryNames] at h
  | cons n rest ih =>
    intro p h
    by_cases hc : fs.files.contains (d ++ [n]) = true
    · simp only [tryNames, if_pos hc] at h
      exact ⟨n, List.mem_cons_self n rest, (Option.some.inj h).symm⟩
    · simp only [tryNames, if_neg hc] at h
      obtain ⟨m, hm, hp⟩ := ih p h
      exact ⟨m, List.mem_cons_of_mem n hm, hp⟩

/-- A hit of `searchDirs` comes from one of the searched directories. -/
theorem searchDirs_mem (fs : FileTree) (names : List String) :
    ∀ (ds : List DirPath) (p : DirPath),
      searchDirs fs names ds = some p →
      ∃ d, d ∈ ds ∧ tryNames fs d names = some p := by
  intro ds
  induction ds with
  | nil => intro p h; simp [searchDirs] at h
  | cons d rest ih =>
    intro p h
    simp only [searchDirs] at h
    cases ht : tryNames fs d names with
    | some q =>
      rw [ht] at h
      exact ⟨d, List.mem_cons_self d rest, by rw [ht]; exact h⟩
    | none =>
      rw [ht] at h
      obtain ⟨d2, hd2, h2⟩ := ih p h
      exact ⟨d2, List.mem_cons_of_mem d hd2, h2⟩

/-- A hit of `findCachedP` is a candidate name inside `dir` itself or one of
its ancestors. -/
theorem findCachedP_shape (fs : FileTree) (dir : DirPath)
    (names : List String) (p : DirPath)
    (h : findCachedP fs dir names = some p) :
    ∃ d n, n ∈ names ∧ p = d ++ [n] ∧ d.length ≤ dir.length := by
  unfold findCachedP at h
  obtain ⟨d, hd, ht⟩ := searchDirs_mem fs names _ p h
  obtain ⟨n, hn, hp⟩ := tryNames_shape fs d names p ht
  refine ⟨d, n, hn, hp, ?_⟩
  rw [List.mem_reverse, List.mem_inits] at hd
  obtain ⟨t, ht2⟩ := hd
  have h3 := congrArg List.length ht2
  simp [List.length_append] at h3
  omega

/-- When `getConfigPathStep` restarts, the restart directory is the parent
of a directory no deeper than the start directory. -/
theorem getConfigPathStep_inr (fs : FileTree) (dir next : DirPath)
    (h : getConfigPathStep fs dir = Sum.inr next) :
    ∃ d : DirPath, next = d.dropLast ∧ d.length ≤ dir.length := by
  unfold getConfigPathStep at h
  cases hf : findCachedP fs dir configFileNames with
  | none => rw [hf] at h; exact Sum.noConfusion h
  | some configFile =>
    rw [hf] at h
    dsimp only at h
    by_cases hl : configFile.getLast? = some "package.json"
    · rw [if_pos hl] at h
      by_cases he : fs.hasEslintConfig configFile = true
      · rw [if_pos he] at h; exact Sum.noConfusion h
      · rw [if_neg he] at h
        have h2 := Sum.inr.inj h
        obtain ⟨d, n, hn, hp, hlen⟩ :=
          findCachedP_shape fs dir configFileNames configFile hf
        refine ⟨d, ?_, hlen⟩
        rw [← h2, hp]
        simp
    · rw [if_neg hl] at h; exact Sum.noConfusion h

/-- Claim C6 (amended): the fuelled `getConfigPath` recursion reaches an
answer from every start directory, provided the step at the filesystem
root does not itself restart — i.e. the root directory does not hold a
`package.json` without an embedded `eslintConfig` as its best candidate.
(The excluded case genuinely loops; see the counterexample.) -/
theorem getConfigPath_terminates_of_rootAnswers (fs : FileTree)
    (hroot : ∀ next, getConfigPathStep fs [] ≠ Sum.inr next) :
    ∀ dir : DirPath, ∃ fuel, (getConfigPathFuel fs fuel dir).isSome = true := by
  have main : ∀ (n : Nat) (dir : DirPath), dir.length ≤ n →
      ∃ fuel, (getConfigPathFuel fs fuel dir).isSome = true := by
    intro n
    induction n with
    | zero =>
      intro dir hlen
      have hdir : dir = [] :=
        List.eq_nil_of_length_eq_zero (Nat.le_zero.mp hlen)
      subst hdir
      cases hstep : getConfigPathStep fs [] with
      | inl r =>
        exact ⟨0 + 1, by rw [getConfigPathFuel_succ, hstep]; rfl⟩
      | inr next => exact absurd hstep (hroot next)
    | succ n ih =>
      intro dir hlen
      cases hstep : getConfigPathStep fs dir with
      | inl r =>
        exact ⟨0 + 1, by rw [getConfigPathFuel_succ, hstep]; rfl⟩
      | inr next =>
        rcases eq_or_ne dir ([] : DirPath) with hdir | hdir
        · subst hdir; exact absurd hstep (hroot next)
        · obtain ⟨d, hnext, hdlen⟩ := getConfigPathStep_inr fs dir next hstep
          have h1 : next.length < dir.length := by
            subst hnext
            have h2 := List.length_dropLast d
            have h3 : 0 < dir.length := List.length_pos.mpr hdir
            omega
          obtain ⟨fuel, hf⟩ := ih next (by omega)
          refine ⟨fuel + 1, ?_⟩
          rw [getConfigPathFuel_succ, hstep]
          exact hf
  exact fun dir => main dir.length dir le_rfl

/-- A witness for C6 (amended): over an empty file tree the root step
answers, so the search from `a/b` terminates. -/
theorem getConfigPath_terminates_of_rootAnswers_witness :
    ∃ fuel,
      (getConfigPathFuel { files := [], hasEslintConfig := fun _ => false }
        fuel ["a", "b"]).isSome = true :=
  getConfigPath_terminates_of_rootAnswers
    { files := [], hasEslintConfig := fun _ => false }
    (fun next h => by
      rw [show getConfigPathStep
          { files := [], hasEslintConfig := fun _ => false } [] =
          Sum.inl none from by decide] at h
      exact Sum.noConfusion h)
    ["a", "b"]

/-- Counterexample to C6 as stated: over `fsRootManifestLoop` the recursion
started at the filesystem root restarts at the root forever, so
`getConfigPath` does not terminate for every start directory. -/
theorem getConfigPath_nonterminating_cex : ¬ GetConfigPathTotal := by
  intro htot
  have key : ∀ fuel : Nat,
      getConfigPathFuel fsRootManifestLoop fuel [] = none := by
    intro fuel
    induction fuel with
    | zero => rfl
    | succ n ih =>
      rw [getConfigPathFuel_succ,
        show getConfigPathStep fsRootManifestLoop [] = Sum.inr [] from
          by decide]
      exact ih
  obtain ⟨fuel, hf⟩ := htot fsRootManifestLoop []
  rw [key fuel] at hf
  simp at hf

/-- Claim C5: the candidate list ends with the manifest file; a first match
that is a `package.json` without an embedded `eslintConfig` restarts the
whole search from the parent of that file's directory; and in the tree
`a/b/c` whose only candidate is a config-less `a/package.json`, the search
returns null. -/
theorem getConfigPath_manifestSkip_and_null :
    configFileNames.getLast? = some "package.json"
    ∧ (∀ (fs : FileTree) (dir p : DirPath) (fuel : Nat),
        findCachedP fs dir configFileNames = some p →
        p.getLast? = some "package.json" →
        fs.hasEslintConfig p = false →
        getConfigPathFuel fs (fuel + 1) dir =
          getConfigPathFuel fs fuel p.dropLast.dropLast)
    ∧ getConfigPathResult fsManifestOnlyAtA ["a", "b", "c"] none := by
  refine ⟨rfl, ?_, ⟨2, by decide⟩⟩
  intro fs dir p fuel hfind hlast hcfg
  have hstep : getConfigPathStep fs dir = Sum.inr p.dropLast.dropLast := by
    unfold getConfigPathStep
    rw [hfind]
    dsimp only
    rw [if_pos hlast, if_neg (by simp [hcfg])]
  rw [getConfigPathFuel_succ, hstep]

/-- A witness for C5 at concrete inputs: the manifest-skip step rewrites the
search at `a/b/c` to a search at the root. -/
theorem getConfigPath_manifestSkip_and_null_witness :
    getConfigPathFuel fsManifestOnlyAtA (1 + 1) ["a", "b", "c"] =
      getConfigPathFuel fsManifestOnlyAtA 1
        (["a", "package.json"].dropLast.dropLast) :=
  getConfigPath_manifestSkip_and_null.2.1 fsManifestOnlyAtA ["a", "b", "c"]
    ["a", "package.json"] 1 (by decide) (by decide) rfl
